import Mathlib

/-
Verification development for the PathMe conversion and merge engine.

The definitions below are a shallow embedding of the repository sources:
  src/pathme/wikipathways/convert_to_bel.py  (node, complex and interaction mapping)
  src/pathme/export_utils.py                 (universe merge iteration and tagging)

Python dictionaries are modelled as association lists with first-match lookup,
Python sets as duplicate-free lists built by ordered insertion, and a raised
exception as the error branch of Except.  External collaborators that the
repository imports (the pybel graph library, the identifier resolver, the
name normalizer and the complex flattener) are modelled as explicit function
parameters or as small definitions written from the interface the spec gives
for them; each of those carries a comment saying so.
-/

namespace Pathme

/-- Ordered duplicate-free insertion: the model of adding one element to a
Python set.  Membership is decidable equality; a fresh element goes to the
back so iteration order is insertion order. -/
def sinsert {α : Type} [DecidableEq α] (x : α) (s : List α) : List α :=
  if x ∈ s then s else s ++ [x]

/-- Assignment of a key in a string-keyed dictionary (the model of
subscript assignment on a Python dict): replace the value when the key is
present, append the pair otherwise. -/
def setKey {β : Type} (m : List (String × β)) (k : String) (v : β) : List (String × β) :=
  if (m.lookup k).isSome then
    m.map (fun p => if p.1 = k then (k, v) else p)
  else
    m ++ [(k, v)]

/-- The BEL entities produced by the converter, following the pybel dsl
constructors used in src/pathme/wikipathways/convert_to_bel.py: protein, rna,
gene, abundance, bioprocess, complex_abundance and reaction. -/
inductive Entity where
  | protein (ns nm ident : String)
  | rna (ns nm ident : String)
  | gene (ns nm ident : String)
  | abundance (ns nm ident : String)
  | bioprocess (ns nm ident : String)
  | complex_abundance (members : List Entity) (ident ns : String)
  | reaction (reactants products : List Entity)

mutual

/-- Boolean equality on entities (component-wise, recursing through member
lists); the nested induction keeps Lean from deriving it automatically. -/
def Entity.beq : Entity → Entity → Bool
  | .protein a b c, .protein d e f => a == d && b == e && c == f
  | .rna a b c, .rna d e f => a == d && b == e && c == f
  | .gene a b c, .gene d e f => a == d && b == e && c == f
  | .abundance a b c, .abundance d e f => a == d && b == e && c == f
  | .bioprocess a b c, .bioprocess d e f => a == d && b == e && c == f
  | .complex_abundance ms i n, .complex_abundance ms2 i2 n2 =>
    Entity.beqList ms ms2 && i == i2 && n == n2
  | .reaction r p, .reaction r2 p2 => Entity.beqList r r2 && Entity.beqList p p2
  | _, _ => false

/-- Boolean equality on entity lists, pointwise. -/
def Entity.beqList : List Entity → List Entity → Bool
  | [], [] => true
  | a :: as, b :: bs => Entity.beq a b && Entity.beqList as bs
  | _, _ => false

end

/-- Entity.beq decides propositional equality; proved by the mutual
recursor over entities and entity lists. -/
def Entity.beq_iff : ∀ a b : Entity, Entity.beq a b = true ↔ a = b := by
  apply @Entity.rec (fun a => ∀ b, Entity.beq a b = true ↔ a = b)
    (fun l => ∀ l2, Entity.beqList l l2 = true ↔ l = l2)
  · intro ns nm ident b
    cases b <;> simp [Entity.beq, and_assoc]
  · intro ns nm ident b
    cases b <;> simp [Entity.beq, and_assoc]
  · intro ns nm ident b
    cases b <;> simp [Entity.beq, and_assoc]
  · intro ns nm ident b
    cases b <;> simp [Entity.beq, and_assoc]
  · intro ns nm ident b
    cases b <;> simp [Entity.beq, and_assoc]
  · intro ms i n ih b
    cases b <;> simp [Entity.beq, ih, and_assoc]
  · intro r p ih1 ih2 b
    cases b <;> simp [Entity.beq, ih1, ih2]
  · intro l2
    cases l2 <;> simp [Entity.beqList]
  · intro a as iha ihas l2
    cases l2 <;> simp [Entity.beqList, iha, ihas]

instance : DecidableEq Entity := fun a b =>
  decidable_of_iff (Entity.beq a b = true) (Entity.beq_iff a b)

/-- One edge of a BEL graph, with the qualified-edge data the repository
attaches: relation, citation, evidence, object modifier and the optional
annotations dictionary (absent on unqualified edges). -/
structure Edge where
  source : Entity
  target : Entity
  relation : String
  citation : Option String
  evidence : Option String
  object_modifier : Option String
  annotations : Option (List (String × List String))
deriving DecidableEq

/-- The BEL graph: pathway metadata, a node set, a multiset of edges in
insertion order and the graph-level annotation domain dictionary
(pybel annotation_list). -/
structure BELGraph where
  name : String
  version : String
  description : String
  pathway_id : String
  nodes : List Entity
  edges : List Edge
  annotation_list : List (String × List String)
deriving DecidableEq

/-- Model of pybel BELGraph.add_node_from_data (external collaborator):
inserts the node into the node set. -/
def BELGraph.add_node_from_data (g : BELGraph) (e : Entity) : BELGraph :=
  { g with nodes := sinsert e g.nodes }

/-- Model of pybel BELGraph.add_increases with citation, empty-string
evidence and an activity object modifier, as called by add_simple_edge:
inserts both endpoints and appends one qualified increases edge. -/
def BELGraph.add_increases (g : BELGraph) (u v : Entity) (uri : String) : BELGraph :=
  let e : Edge :=
    { source := u, target := v, relation := "increases", citation := some uri,
      evidence := some "", object_modifier := some "activity", annotations := none }
  { g with nodes := sinsert v (sinsert u g.nodes), edges := g.edges ++ [e] }

/-- Model of pybel BELGraph.add_decreases, same qualification as
add_increases but with the decreases relation. -/
def BELGraph.add_decreases (g : BELGraph) (u v : Entity) (uri : String) : BELGraph :=
  let e : Edge :=
    { source := u, target := v, relation := "decreases", citation := some uri,
      evidence := some "", object_modifier := some "activity", annotations := none }
  { g with nodes := sinsert v (sinsert u g.nodes), edges := g.edges ++ [e] }

/-- Model of pybel BELGraph.add_translation: an unqualified translatedTo
edge carrying no citation, evidence, modifier or annotations. -/
def BELGraph.add_translation (g : BELGraph) (u v : Entity) : BELGraph :=
  let e : Edge :=
    { source := u, target := v, relation := "translatedTo", citation := none,
      evidence := none, object_modifier := none, annotations := none }
  { g with nodes := sinsert v (sinsert u g.nodes), edges := g.edges ++ [e] }

/-- Model of pybel BELGraph.add_association with citation, empty evidence
and the EdgeTypes annotation holding the raw interaction type set, as called
by add_simple_edge. -/
def BELGraph.add_association (g : BELGraph) (u v : Entity) (uri : String)
    (edge_types : List String) : BELGraph :=
  let e : Edge :=
    { source := u, target := v, relation := "association", citation := some uri,
      evidence := some "", object_modifier := none,
      annotations := some [("EdgeTypes", edge_types)] }
  { g with nodes := sinsert v (sinsert u g.nodes), edges := g.edges ++ [e] }

/-- Modelled from the spec: the source database name constants of
pathme.constants (that module is not under src/). -/
def KEGG : String := "kegg"

/-- Modelled from the spec: the Reactome database name constant of
pathme.constants (not under src/). -/
def REACTOME : String := "reactome"

/-- Modelled from the spec: the WikiPathways database name constant of
pathme.constants (not under src/). -/
def WIKIPATHWAYS : String := "wikipathways"

/-- Modelled from the spec: the fixed HGNC namespace constant of
pathme.constants (not under src/).  Only its being a fixed literal matters
to the claims, never its exact text. -/
def HGNC : String := "HGNC"

/-- Modelled from the spec: parse_id_uri of pathme.utils (not under src/)
parses an identifier URI into (scheme, authority, namespace, local id);
the spec gives no algorithm, so the URI is split on slashes and the pieces
are read off positionally, with the last piece as the local identifier. -/
def parse_id_uri (uri : String) : String × String × String × String :=
  let parts := (uri.splitOn "/").filter (fun s => s ≠ "")
  (parts.getD 0 "", parts.getD 1 "", parts.getD 2 "", (parts.getLast?).getD "")

/-- A raw string-valued attribute that WikiPathways sometimes delivers as a
set of several candidate strings instead of one string. -/
inductive StrVal where
  | str (s : String)
  | strSet (ss : List String)
deriving DecidableEq, Repr

/-- The selection the source performs on a multi-valued attribute:
list(value)[0], i.e. the first element in iteration order.  On a plain
string it is the string itself. -/
def StrVal.pick : StrVal → String
  | .str s => s
  | .strSet ss => ss.headD ""

/-- A raw WikiPathways node record as consumed by node_to_bel: the type tag
set, the source URI, the optional (possibly multi-valued) identifier field,
the optional identifiers dictionary and the (possibly multi-valued) display
name. -/
structure RawNode where
  node_types : List String
  uri_id : String
  identifier : Option StrVal
  identifiers : Option (List (String × String))
  name : StrVal
deriving DecidableEq, Repr

/-- The argument handed to the identifier resolver: the identifiers
dictionary of the node when present, otherwise the whole node record,
exactly as node_to_bel computes node_ids_dict. -/
inductive ResolverInput where
  | idsDict (d : List (String × String))
  | rawNode (n : RawNode)
deriving DecidableEq, Repr

/-- The node_ids_dict computation of node_to_bel: node.identifiers when the
key is present, else the node itself. -/
def node_ids_dict_of (node : RawNode) : ResolverInput :=
  match node.identifiers with
  | some d => .idsDict d
  | none => .rawNode node

/-- The identifier resolver interface (external collaborator): stands for
get_valid_gene_identifier applied to the hgnc manager, returning a
(namespace, name, identifier) triple. -/
def Resolver : Type := ResolverInput → String × String × String

/-- Embedding of node_to_bel (src/pathme/wikipathways/convert_to_bel.py,
lines 53..108): choose the identifier, the resolver argument, the
URI-derived namespace and the name, then dispatch on the type tags first
match wins; unrecognized tag sets yield no node. -/
def node_to_bel (node : RawNode) (resolver : Resolver) : Option Entity :=
  let identifier := match node.identifier with
    | some v => v.pick
    | none => node.uri_id
  let node_ids_dict := node_ids_dict_of node
  let ns_ := (parse_id_uri node.uri_id).2.2.1
  let nm := node.name.pick
  if "Protein" ∈ node.node_types then
    let r := resolver node_ids_dict
    some (.protein r.1 r.2.1 r.2.2)
  else if "Rna" ∈ node.node_types then
    let r := resolver node_ids_dict
    some (.rna r.1 r.2.1 r.2.2)
  else if "GeneProduct" ∈ node.node_types then
    let r := resolver node_ids_dict
    some (.gene HGNC r.2.1 r.2.2)
  else if "Metabolite" ∈ node.node_types then
    some (.abundance ns_ nm identifier)
  else if "Pathway" ∈ node.node_types then
    some (.bioprocess ns_ nm identifier)
  else if "DataNode" ∈ node.node_types then
    some (.abundance ns_ nm identifier)
  else
    none

/-- Embedding of nodes_to_bel: the dictionary comprehension mapping each
node id to node_to_bel of its record.  A value none models the Python None
that node_to_bel returns on an unrecognized tag set; the key stays in the
dictionary. -/
def nodes_to_bel (nodes : List (String × RawNode)) (resolver : Resolver) :
    List (String × Option Entity) :=
  nodes.map (fun p => (p.1, node_to_bel p.2 resolver))

/-- A raw WikiPathways complex record as consumed by complex_to_bel: its
member id list and its source URI. -/
structure RawComplex where
  participants : List String
  uri_id : String
deriving DecidableEq, Repr

/-- Turn a list of dictionary values into entities, failing on a Python
None value: pybel (and networkx beneath it) reject None as a graph node,
so a None member reaching entity construction is an error, not a drop. -/
def unwrapEntities : List (Option Entity) → Except String (List Entity)
  | [] => .ok []
  | some e :: rest => (unwrapEntities rest).map (fun es => e :: es)
  | none :: _ => .error "TypeError: None is not a BaseEntity"

/-- Embedding of complex_to_bel (src/pathme/wikipathways/convert_to_bel.py,
lines 120..132): collect the set of resolved member values, keeping only
member ids present in the mapping, parse the complex URI for the
identifier, build the wp_complex composite node and insert it into the
graph. -/
def complex_to_bel (c : RawComplex) (nodes : List (String × Option Entity))
    (graph : BELGraph) : Except String (Entity × BELGraph) := do
  let memberVals := c.participants.foldl (fun acc mid =>
    match nodes.lookup mid with
    | some v => sinsert v acc
    | none => acc) []
  let members ← unwrapEntities memberVals
  let ident := (parse_id_uri c.uri_id).2.2.2
  let complex_bel_node := Entity.complex_abundance members ident "wp_complex"
  .ok (complex_bel_node, graph.add_node_from_data complex_bel_node)

/-- Embedding of complexes_to_bel: the dictionary comprehension calling
complex_to_bel per complex, threading the graph through the side-effecting
insertions. -/
def complexes_to_bel (complexes : List (String × RawComplex))
    (nodes : List (String × Option Entity)) (graph : BELGraph) :
    Except String (List (String × Option Entity) × BELGraph) :=
  complexes.foldlM (fun acc p => do
    let r ← complex_to_bel p.2 nodes acc.2
    .ok (acc.1 ++ [(p.1, some r.1)], r.2)) ([], graph)

/-- A raw WikiPathways interaction record: source URI, interaction type tag
set and participant (source, target) pairs. -/
structure RawInteraction where
  uri_id : String
  interaction_types : List String
  participants : List (String × String)
deriving DecidableEq, Repr

/-- The set comprehension looking every id of a Conversion reactant or
product id set up in the node mapping: a missing key raises KeyError, and
the values found are accumulated as a set. -/
def lookupValues (nodes : List (String × Option Entity)) :
    List String → List (Option Entity) → Except String (List (Option Entity))
  | [], acc => .ok acc
  | i :: rest, acc =>
    match nodes.lookup i with
    | none => .error ("KeyError: " ++ i)
    | some v => lookupValues nodes rest (sinsert v acc)

/-- Embedding of add_simple_edge (src/pathme/wikipathways/convert_to_bel.py,
lines 175..203): dispatch on the interaction type tags first match wins in
the order Stimulation, Inhibition, Catalysis, TranscriptionTranslation,
DirectedInteraction, Interaction; the last tag and the no-match case both
do nothing.  The endpoints come straight out of the node dictionary, so
they can be the Python None of an unresolved node; a branch that hands an
endpoint to pybel then fails, while the two silent branches do not touch
the endpoints at all. -/
def add_simple_edge (graph : BELGraph) (u v : Option Entity)
    (edge_types : List String) (uri_id : String) : Except String BELGraph :=
  if "Stimulation" ∈ edge_types then
    match u, v with
    | some u, some v => .ok (graph.add_increases u v uri_id)
    | _, _ => .error "TypeError: None is not a BaseEntity"
  else if "Inhibition" ∈ edge_types then
    match u, v with
    | some u, some v => .ok (graph.add_decreases u v uri_id)
    | _, _ => .error "TypeError: None is not a BaseEntity"
  else if "Catalysis" ∈ edge_types then
    match u, v with
    | some u, some v => .ok (graph.add_increases u v uri_id)
    | _, _ => .error "TypeError: None is not a BaseEntity"
  else if "TranscriptionTranslation" ∈ edge_types then
    match u, v with
    | some u, some v => .ok (graph.add_translation u v)
    | _, _ => .error "TypeError: None is not a BaseEntity"
  else if "DirectedInteraction" ∈ edge_types then
    match u, v with
    | some u, some v => .ok (graph.add_association u v uri_id edge_types)
    | _, _ => .error "TypeError: None is not a BaseEntity"
  else if "Interaction" ∈ edge_types then
    .ok graph
  else
    .ok graph

/-- Embedding of add_edges (src/pathme/wikipathways/convert_to_bel.py,
lines 135..172).  Conversion interactions collect the deduplicated
participant sources and targets, look every one of them up in the node
mapping with a plain dictionary access (a missing id raises KeyError) and
insert one reaction node.  Every other interaction walks the participant
pairs, skipping a pair whose source id is absent from the mapping, skipping
with a warning a pair whose target id is absent, and otherwise calling
add_simple_edge on the two dictionary values. -/
def add_edges (graph : BELGraph) (participants : List (String × String))
    (nodes : List (String × Option Entity)) (att : RawInteraction) :
    Except String BELGraph :=
  let uri_id := att.uri_id
  let edge_types := att.interaction_types
  if "Conversion" ∈ edge_types then do
    let reactantIds := participants.foldl (fun acc p => sinsert p.1 acc) []
    let productIds := participants.foldl (fun acc p => sinsert p.2 acc) []
    let reactantVals ← lookupValues nodes reactantIds []
    let productVals ← lookupValues nodes productIds []
    let reactants ← unwrapEntities reactantVals
    let products ← unwrapEntities productVals
    let reaction_node := Entity.reaction reactants products
    .ok (graph.add_node_from_data reaction_node)
  else
    participants.foldlM (fun g p =>
      match nodes.lookup p.1 with
      | none => .ok g
      | some u =>
        match nodes.lookup p.2 with
        | none => .ok g
        | some v => add_simple_edge g u v edge_types uri_id) graph

/-- Python dict.update modelled on association lists: entries of the second
dictionary shadow entries of the first under first-match lookup. -/
def dictUpdate {β : Type} (old new : List (String × β)) : List (String × β) :=
  new ++ old

/-- The BELGraph constructor call of convert_to_bel: pathway metadata in,
empty node and edge sets. -/
def initial_graph (title description pid : String) : BELGraph :=
  { name := title, version := "1.0.0", description := description,
    pathway_id := pid, nodes := [], edges := [], annotation_list := [] }

/-- Dictionary access pathway_info[key]: error (KeyError) when the key is
absent. -/
def getItem (m : List (String × String)) (k : String) : Except String String :=
  match m.lookup k with
  | some v => .ok v
  | none => .error ("KeyError: " ++ k)

/-- Embedding of convert_to_bel (src/pathme/wikipathways/convert_to_bel.py,
lines 23..42): read title, description and pathway_id out of pathway_info
(in the evaluation order of the keyword arguments, each a plain dictionary
access), build the metadata graph, map the nodes, map the complexes with
their graph insertions, merge the two dictionaries and add the edges of
every interaction.  The evaluate_wikipathways_metadata normalizer is
pathme code outside src/ and is passed as a function parameter. -/
def convert_to_bel (nodes : List (String × RawNode))
    (complexes : List (String × RawComplex)) (interactions : List RawInteraction)
    (pathway_info : List (String × String)) (resolver : Resolver)
    (evaluate_wikipathways_metadata : String → String) : Except String BELGraph := do
  let title ← getItem pathway_info "title"
  let description ← getItem pathway_info "description"
  let pid ← getItem pathway_info "pathway_id"
  let graph := initial_graph title (evaluate_wikipathways_metadata description) pid
  let bel_nodes := nodes_to_bel nodes resolver
  let cg ← complexes_to_bel complexes bel_nodes graph
  let bel_nodes := dictUpdate bel_nodes cg.1
  interactions.foldlM (fun g i => add_edges g i.participants bel_nodes i) cg.2

/-- Embedding of add_annotation_key (src/pathme/export_utils.py, lines
23..31): give every edge lacking an annotations container an empty one;
edges that already carry one are left untouched. -/
def add_annotation_key (g : BELGraph) : BELGraph :=
  { g with edges := g.edges.map (fun e =>
      match e.annotations with
      | none => { e with annotations := some [] }
      | some _ => e) }

/-- Modelled from the spec: pybel.struct.add_annotation_value (external
collaborator, not repository code) asserts the given value for the given
annotation key on every edge that has an annotations container. -/
def add_annotation_value (g : BELGraph) (k v : String) : BELGraph :=
  { g with edges := g.edges.map (fun e =>
      match e.annotations with
      | none => e
      | some anns => { e with annotations := some (setKey anns k [v]) }) }

/-- The environment the universe merge runs in: the pickle loader, the
complex flattener and name normalizer (pathme code outside src/, passed as
functions), the three source folders, the directory listing oracle and the
two feature flags. -/
structure MergeEnv where
  load : String → String → Except String BELGraph
  flattenFn : BELGraph → BELGraph
  normalizeFn : BELGraph → String → BELGraph
  kegg_path : String
  reactome_path : String
  wikipathways_path : String
  listdir : String → List String
  flatten : Bool
  normalize_names : Bool

/-- Embedding of get_all_pickles (src/pathme/export_utils.py, lines
33..50): list the three source folders, in the order KEGG, Reactome,
WikiPathways. -/
def get_all_pickles (env : MergeEnv) : List String × List String × List String :=
  (env.listdir env.kegg_path, env.listdir env.reactome_path,
   env.listdir env.wikipathways_path)

/-- The Python str.endswith check, computed on the character lists so that
it evaluates inside the kernel. -/
def endswith (s suffix : String) : Bool := suffix.data.isSuffixOf s.data

/-- The flatten and normalize steps a loaded graph passes through before
tagging, guarded by the two flags, exactly as in each branch of
_iterate_universe_graphs. -/
def _flatten_normalize (env : MergeEnv) (g : BELGraph) (db : String) : BELGraph :=
  let g := if env.flatten then env.flattenFn g else g
  if env.normalize_names then env.normalizeFn g db else g

/-- The body the three identical source branches of
_iterate_universe_graphs (src/pathme/export_utils.py, lines 93..131) apply
to a loaded graph, differing only in the database constant: flatten,
normalize, declare the database annotation domain, ensure the annotation
containers and assert the database value. -/
def _process_branch (env : MergeEnv) (g : BELGraph) (db : String) : BELGraph :=
  let g := _flatten_normalize env g db
  let dom := [KEGG, REACTOME, WIKIPATHWAYS]
  let g := { g with annotation_list := setKey g.annotation_list "database" dom }
  let g := add_annotation_key g
  add_annotation_value g "database" db

/-- One iteration of the pickle loop of _iterate_universe_graphs: skip
files without the .pickle suffix, classify the file against the three
listings in the order KEGG, Reactome, WikiPathways first match wins, load
it from the matching folder and process it, and skip (with a warning)
files in no listing.  A loader failure propagates: the source has no
handler around from_pickle. -/
def _process_file (env : MergeEnv)
    (kegg_pickles reactome_pickles wp_pickles : List String)
    (acc : List BELGraph) (file : String) : Except String (List BELGraph) :=
  if ¬ endswith file ".pickle" then .ok acc
  else if file ∈ kegg_pickles then
    match env.load env.kegg_path file with
    | .ok g => .ok (acc ++ [_process_branch env g KEGG])
    | .error m => .error m
  else if file ∈ reactome_pickles then
    match env.load env.reactome_path file with
    | .ok g => .ok (acc ++ [_process_branch env g REACTOME])
    | .error m => .error m
  else if file ∈ wp_pickles then
    match env.load env.wikipathways_path file with
    | .ok g => .ok (acc ++ [_process_branch env g WIKIPATHWAYS])
    | .error m => .error m
  else .ok acc

/-- Embedding of _iterate_universe_graphs (src/pathme/export_utils.py,
lines 71..138): list the three folders, concatenate the listings and fold
the per-file step over them, accumulating the processed graphs the
generator yields. -/
def _iterate_universe_graphs (env : MergeEnv) : Except String (List BELGraph) :=
  let ps := get_all_pickles env
  let all_pickles := ps.1 ++ ps.2.1 ++ ps.2.2
  all_pickles.foldlM (_process_file env ps.1 ps.2.1 ps.2.2) []

/-- The resolvability condition on one interaction under a node mapping,
read off the add_edges code paths that can fail: a Conversion interaction
needs every participant source and target to be mapped to a real entity;
any other interaction only needs that no participant id is mapped to the
Python None of an unresolved node (absent ids are skipped). -/
def interactionOK (m : List (String × Option Entity)) (i : RawInteraction) : Prop :=
  if "Conversion" ∈ i.interaction_types then
    ∀ p ∈ i.participants,
      (∃ e, m.lookup p.1 = some (some e)) ∧ (∃ e, m.lookup p.2 = some (some e))
  else
    ∀ p ∈ i.participants, m.lookup p.1 ≠ some none ∧ m.lookup p.2 ≠ some none

/-- A fixed resolver used for concrete check inputs. -/
def r0 : Resolver := fun _ => ("ncbigene", "ACE2", "59272")

/-- A fixed metadata normalizer used for concrete check inputs. -/
def ev0 : String → String := fun s => s

/-- An empty pathway graph used for concrete check inputs. -/
def g0 : BELGraph := initial_graph "t" "d" "wp0"

/-- A concrete metabolite entity. -/
def uA : Entity := .abundance "chebi" "water" "15377"

/-- A second concrete metabolite entity. -/
def uB : Entity := .abundance "chebi" "acid" "15378"

/-- A Conversion interaction between the ids a and b. -/
def attConv : RawInteraction :=
  { uri_id := "http://x/y/i1", interaction_types := ["Conversion"],
    participants := [("a", "b")] }

/-- A Stimulation interaction between the ids n1 and n2. -/
def attStim : RawInteraction :=
  { uri_id := "http://x/y/i2", interaction_types := ["Stimulation"],
    participants := [("n1", "n2")] }

/-- A node mapping holding only the id b. -/
def mOnlyB : List (String × Option Entity) := [("b", some uB)]

/-- A node mapping resolving both a and b. -/
def mAB : List (String × Option Entity) := [("a", some uA), ("b", some uB)]

/-- A raw node with an unrecognized type tag set. -/
def unkNode : RawNode :=
  { node_types := ["Label"], uri_id := "http://x/y/n2", identifier := none,
    identifiers := none, name := .str "lbl" }

/-- A raw metabolite node. -/
def metNode : RawNode :=
  { node_types := ["Metabolite"], uri_id := "http://identifiers.org/chebi/15377",
    identifier := some (.str "15377"), identifiers := none, name := .str "water" }

/-- A raw gene-product node with an identifiers dictionary. -/
def gpNode : RawNode :=
  { node_types := ["GeneProduct"], uri_id := "http://identifiers.org/ncbigene/59272",
    identifier := some (.str "59272"), identifiers := some [("ncbigene", "59272")],
    name := .str "ACE2" }

/-- A raw node dictionary with a resolvable metabolite n1 and an
unrecognized node n2. -/
def rawNodes : List (String × RawNode) := [("n1", metNode), ("n2", unkNode)]

/-- Pathway metadata carrying title and identifier but no description. -/
def pinfoNoDesc : List (String × String) := [("title", "T"), ("pathway_id", "WP1")]

/-- Complete pathway metadata. -/
def pinfoFull : List (String × String) :=
  [("title", "T"), ("description", "D"), ("pathway_id", "WP1")]

/-- A merge environment whose KEGG folder holds one unloadable pickle and
one good pickle. -/
def env0 : MergeEnv :=
  { load := fun _ file =>
      if file = "bad.pickle" then .error "UnpicklingError" else .ok g0,
    flattenFn := fun g => g,
    normalizeFn := fun g _ => g,
    kegg_path := "k", reactome_path := "r", wikipathways_path := "w",
    listdir := fun p => if p = "k" then ["bad.pickle", "good.pickle"] else [],
    flatten := true, normalize_names := true }

/-- A merge environment whose KEGG and WikiPathways folders both list the
same file name. -/
def envDup : MergeEnv :=
  { load := fun _ _ => .ok g0,
    flattenFn := fun g => g,
    normalizeFn := fun g _ => g,
    kegg_path := "k", reactome_path := "r", wikipathways_path := "w",
    listdir := fun p => if p = "r" then [] else ["dup.pickle"],
    flatten := false, normalize_names := false }

/-- A raw complex whose two declared members resolve to nothing. -/
def cplx0 : RawComplex :=
  { participants := ["p1", "p2"], uri_id := "http://x/complex/c9" }

/-- A graph with one annotated and one unannotated edge, for concrete
checks of the tagging step. -/
def gE : BELGraph :=
  let e1 : Edge :=
    { source := uA, target := uB, relation := "increases", citation := some "c",
      evidence := some "", object_modifier := none,
      annotations := some [("Cell", ["x"])] }
  let e2 : Edge :=
    { source := uB, target := uA, relation := "association", citation := none,
      evidence := none, object_modifier := none, annotations := none }
  { g0 with nodes := [uA, uB], edges := [e1, e2] }

/-- The first edge of gE after the merge tagging step under the KEGG
database: its Cell annotation is untouched and the database value is
appended. -/
def taggedE1 : Edge :=
  { source := uA, target := uB, relation := "increases", citation := some "c",
    evidence := some "", object_modifier := none,
    annotations := some [("Cell", ["x"]), ("database", [KEGG])] }

/-! ### Helper lemmas -/

theorem mem_sinsert {α : Type} [DecidableEq α] (a x : α) (s : List α) :
    a ∈ sinsert x s ↔ a = x ∨ a ∈ s := by
  unfold sinsert
  split
  · constructor
    · exact fun h => Or.inr h
    · rintro (rfl | h) <;> assumption
  · simp [or_comm]

theorem sinsert_nodup {α : Type} [DecidableEq α] (x : α) (s : List α)
    (h : s.Nodup) : (sinsert x s).Nodup := by
  unfold sinsert
  split
  · exact h
  · rename_i hx
    simp only [List.nodup_append, List.nodup_cons, List.nodup_nil, and_true,
      List.disjoint_singleton]
    exact ⟨h, by simpa using hx⟩

theorem mem_foldl_sinsert {α β : Type} [DecidableEq β] (f : α → β) (l : List α)
    (init : List β) (b : β) :
    b ∈ l.foldl (fun acc x => sinsert (f x) acc) init ↔
      b ∈ init ∨ ∃ x ∈ l, f x = b := by
  induction l generalizing init with
  | nil => simp
  | cons a as ih =>
    simp only [List.foldl_cons, ih, mem_sinsert, List.mem_cons]
    constructor
    · rintro ((rfl | h) | ⟨x, hx, rfl⟩)
      · exact Or.inr ⟨a, Or.inl rfl, rfl⟩
      · exact Or.inl h
      · exact Or.inr ⟨x, Or.inr hx, rfl⟩
    · rintro (h | ⟨x, (rfl | hx), rfl⟩)
      · exact Or.inl (Or.inr h)
      · exact Or.inl (Or.inl rfl)
      · exact Or.inr ⟨x, hx, rfl⟩

theorem foldl_sinsert_nodup {α β : Type} [DecidableEq β] (f : α → β) (l : List α)
    (init : List β) (h : init.Nodup) :
    (l.foldl (fun acc x => sinsert (f x) acc) init).Nodup := by
  induction l generalizing init with
  | nil => simpa
  | cons a as ih => exact ih _ (sinsert_nodup _ _ h)

theorem lookup_cons {β : Type} (p : String × β) (t : List (String × β)) (k : String) :
    (p :: t).lookup k = if k = p.1 then some p.2 else t.lookup k := by
  rcases p with ⟨a, b⟩
  by_cases h : k = a
  · simp [List.lookup, h]
  · have hb : (k == a) = false := by simpa using h
    simp [List.lookup, hb, h]

theorem lookup_append_right {β : Type} (m m2 : List (String × β)) (k : String)
    (h : m.lookup k = none) : (m ++ m2).lookup k = m2.lookup k := by
  induction m with
  | nil => simp
  | cons p t ih =>
    rw [lookup_cons] at h
    rw [List.cons_append, lookup_cons]
    by_cases hk : k = p.1
    · simp [hk] at h
    · rw [if_neg hk] at h ⊢
      exact ih h

theorem lookup_setKey_self {β : Type} (m : List (String × β)) (k : String) (v : β) :
    (setKey m k v).lookup k = some v := by
  unfold setKey
  split
  · rename_i h
    induction m with
    | nil => simp [List.lookup] at h
    | cons p t ih =>
      rw [lookup_cons] at h
      rw [List.map_cons]
      by_cases hk : p.1 = k
      · rw [if_pos hk, lookup_cons]
        simp
      · rw [if_neg hk, lookup_cons, if_neg (fun hh => hk hh.symm)]
        rw [if_neg (fun hh => hk hh.symm)] at h
        exact ih h
  · rename_i h
    have hnone : m.lookup k = none := by
      cases hm : m.lookup k
      · rfl
      · rw [hm] at h; simp at h
    rw [lookup_append_right _ _ _ hnone, lookup_cons]
    simp

theorem lookup_setKey_ne {β : Type} (m : List (String × β)) (k k2 : String) (v : β)
    (hne : k2 ≠ k) : (setKey m k v).lookup k2 = m.lookup k2 := by
  unfold setKey
  split
  · rename_i h
    clear h
    induction m with
    | nil => simp
    | cons p t ih =>
      rw [List.map_cons, lookup_cons, lookup_cons]
      by_cases hk : p.1 = k
      · rw [if_pos hk]
        rw [if_neg (show k2 ≠ (k, v).1 from hne)]
        rw [if_neg (fun hh : k2 = p.1 => hne (hh.trans hk)), ih]
      · rw [if_neg hk]
        by_cases h2 : k2 = p.1
        · simp [h2]
        · rw [if_neg h2, if_neg h2, ih]
  · rename_i h
    clear h
    induction m with
    | nil =>
      simp [lookup_cons, if_neg hne]
    | cons p t ih =>
      rw [List.cons_append, lookup_cons, lookup_cons]
      by_cases h2 : k2 = p.1
      · simp [h2]
      · rw [if_neg h2, if_neg h2, ih]

theorem lookupValues_ok (m : List (String × Option Entity)) (ids : List String)
    (acc : List (Option Entity)) (h : ∀ i ∈ ids, (m.lookup i).isSome) :
    ∃ out, lookupValues m ids acc = .ok out := by
  induction ids generalizing acc with
  | nil => exact ⟨acc, rfl⟩
  | cons i rest ih =>
    have hi : (m.lookup i).isSome := h i (List.mem_cons_self i rest)
    obtain ⟨v, hv⟩ := Option.isSome_iff_exists.mp hi
    have := ih (sinsert v acc) (fun j hj => h j (List.mem_cons_of_mem i hj))
    obtain ⟨out, hout⟩ := this
    exact ⟨out, by simp [lookupValues, hv, hout]⟩

theorem lookupValues_mem (m : List (String × Option Entity)) (ids : List String)
    (acc out : List (Option Entity)) (h : lookupValues m ids acc = .ok out) :
    ∀ v, v ∈ out ↔ v ∈ acc ∨ ∃ i ∈ ids, m.lookup i = some v := by
  induction ids generalizing acc with
  | nil =>
    simp only [lookupValues] at h
    cases h
    simp
  | cons i rest ih =>
    simp only [lookupValues] at h
    cases hv : m.lookup i with
    | none => rw [hv] at h; cases h
    | some v0 =>
      rw [hv] at h
      intro v
      rw [ih _ h v, mem_sinsert]
      constructor
      · rintro ((rfl | ha) | ⟨j, hj, hl⟩)
        · exact Or.inr ⟨i, List.mem_cons_self i rest, hv⟩
        · exact Or.inl ha
        · exact Or.inr ⟨j, List.mem_cons_of_mem i hj, hl⟩
      · rintro (ha | ⟨j, hj, hl⟩)
        · exact Or.inl (Or.inr ha)
        · rcases List.mem_cons.mp hj with rfl | hj2
          · rw [hv] at hl
            cases hl
            exact Or.inl (Or.inl rfl)
          · exact Or.inr ⟨j, hj2, hl⟩

theorem lookupValues_nodup (m : List (String × Option Entity)) (ids : List String)
    (acc out : List (Option Entity)) (h : lookupValues m ids acc = .ok out)
    (hacc : acc.Nodup) : out.Nodup := by
  induction ids generalizing acc with
  | nil =>
    simp only [lookupValues] at h
    cases h
    exact hacc
  | cons i rest ih =>
    simp only [lookupValues] at h
    cases hv : m.lookup i with
    | none => rw [hv] at h; cases h
    | some v0 =>
      rw [hv] at h
      exact ih _ h (sinsert_nodup _ _ hacc)

theorem unwrapEntities_ok_iff (vs : List (Option Entity)) (es : List Entity) :
    unwrapEntities vs = .ok es ↔ vs = es.map some := by
  induction vs generalizing es with
  | nil =>
    cases es <;> simp [unwrapEntities]
  | cons v rest ih =>
    cases v with
    | none =>
      simp only [unwrapEntities]
      constructor
      · intro h
        exact Except.noConfusion h
      · intro h
        cases es <;> simp at h
    | some e =>
      simp only [unwrapEntities]
      cases hrec : unwrapEntities rest with
      | error m =>
        constructor
        · intro h
          simp [Except.map] at h
        · intro h
          cases es with
          | nil => simp at h
          | cons a b =>
            simp only [List.map_cons, List.cons.injEq] at h
            have hb : unwrapEntities rest = .ok b := (ih b).mpr h.2
            rw [hb] at hrec
            exact Except.noConfusion hrec
      | ok es2 =>
        have hr : rest = es2.map some := (ih es2).mp hrec
        constructor
        · intro h
          simp only [Except.map] at h
          injection h with h2
          subst h2
          simp [hr]
        · intro h
          cases es with
          | nil => simp at h
          | cons a b =>
            simp only [List.map_cons, List.cons.injEq] at h
            obtain ⟨ha, hb⟩ := h
            have hea : e = a := by injection ha
            have hb2 : unwrapEntities rest = .ok b := (ih b).mpr hb
            rw [hb2] at hrec
            injection hrec with h3
            subst h3
            subst hea
            rfl

theorem all_some_exists (vs : List (Option Entity))
    (h : ∀ v ∈ vs, ∃ e, v = some e) : ∃ es, vs = List.map some es := by
  induction vs with
  | nil => exact ⟨[], rfl⟩
  | cons v rest ih =>
    obtain ⟨es, hes⟩ := ih (fun w hw => h w (List.mem_cons_of_mem _ hw))
    obtain ⟨e, he⟩ := h v (List.mem_cons_self v rest)
    exact ⟨e :: es, by simp [hes, he]⟩

theorem add_simple_edge_stim (g : BELGraph) (u v : Entity) (ts : List String)
    (uri : String) (h : "Stimulation" ∈ ts) :
    add_simple_edge g (some u) (some v) ts uri = .ok (g.add_increases u v uri) := by
  simp [add_simple_edge, h]

theorem add_simple_edge_inh (g : BELGraph) (u v : Entity) (ts : List String)
    (uri : String) (hS : "Stimulation" ∉ ts) (h : "Inhibition" ∈ ts) :
    add_simple_edge g (some u) (some v) ts uri = .ok (g.add_decreases u v uri) := by
  simp [add_simple_edge, hS, h]

theorem add_simple_edge_cat (g : BELGraph) (u v : Entity) (ts : List String)
    (uri : String) (hS : "Stimulation" ∉ ts) (hI : "Inhibition" ∉ ts)
    (h : "Catalysis" ∈ ts) :
    add_simple_edge g (some u) (some v) ts uri = .ok (g.add_increases u v uri) := by
  simp [add_simple_edge, hS, hI, h]

theorem add_simple_edge_tt (g : BELGraph) (u v : Entity) (ts : List String)
    (uri : String) (hS : "Stimulation" ∉ ts) (hI : "Inhibition" ∉ ts)
    (hC : "Catalysis" ∉ ts) (h : "TranscriptionTranslation" ∈ ts) :
    add_simple_edge g (some u) (some v) ts uri = .ok (g.add_translation u v) := by
  simp [add_simple_edge, hS, hI, hC, h]

theorem add_simple_edge_di (g : BELGraph) (u v : Entity) (ts : List String)
    (uri : String) (hS : "Stimulation" ∉ ts) (hI : "Inhibition" ∉ ts)
    (hC : "Catalysis" ∉ ts) (hT : "TranscriptionTranslation" ∉ ts)
    (h : "DirectedInteraction" ∈ ts) :
    add_simple_edge g (some u) (some v) ts uri = .ok (g.add_association u v uri ts) := by
  simp [add_simple_edge, hS, hI, hC, hT, h]

theorem add_simple_edge_silent (g : BELGraph) (u v : Option Entity) (ts : List String)
    (uri : String) (hS : "Stimulation" ∉ ts) (hI : "Inhibition" ∉ ts)
    (hC : "Catalysis" ∉ ts) (hT : "TranscriptionTranslation" ∉ ts)
    (hD : "DirectedInteraction" ∉ ts) :
    add_simple_edge g u v ts uri = .ok g := by
  simp only [add_simple_edge, if_neg hS, if_neg hI, if_neg hC, if_neg hT, if_neg hD]
  split <;> rfl

theorem add_simple_edge_total (g : BELGraph) (u v : Entity) (ts : List String)
    (uri : String) : ∃ g2, add_simple_edge g (some u) (some v) ts uri = .ok g2 := by
  unfold add_simple_edge
  split
  · exact ⟨_, rfl⟩
  · split
    · exact ⟨_, rfl⟩
    · split
      · exact ⟨_, rfl⟩
      · split
        · exact ⟨_, rfl⟩
        · split
          · exact ⟨_, rfl⟩
          · split
            · exact ⟨_, rfl⟩
            · exact ⟨_, rfl⟩

theorem foldlM_ok {α : Type} (step : BELGraph → α → Except String BELGraph)
    (l : List α) (g : BELGraph)
    (hstep : ∀ a ∈ l, ∀ g2, ∃ g3, step g2 a = .ok g3) :
    ∃ g4, l.foldlM step g = .ok g4 := by
  induction l generalizing g with
  | nil => exact ⟨g, rfl⟩
  | cons a rest ih =>
    obtain ⟨g3, hg3⟩ := hstep a (List.mem_cons_self a rest) g
    obtain ⟨g4, hg4⟩ := ih g3 (fun b hb g5 => hstep b (List.mem_cons_of_mem _ hb) g5)
    refine ⟨g4, ?_⟩
    simp only [List.foldlM]
    rw [hg3]
    exact hg4

theorem foldlM_ok_const {α : Type} (step : BELGraph → α → Except String BELGraph)
    (l : List α) (g : BELGraph) (hstep : ∀ a ∈ l, ∀ g2, step g2 a = .ok g2) :
    l.foldlM step g = .ok g := by
  induction l generalizing g with
  | nil => rfl
  | cons a rest ih =>
    have h1 := hstep a (List.mem_cons_self a rest) g
    have h2 := ih g (fun b hb g2 => hstep b (List.mem_cons_of_mem _ hb) g2)
    simp only [List.foldlM]
    rw [h1]
    exact h2

theorem except_bind_ok {α β : Type} (a : α) (f : α → Except String β) :
    (Except.ok a >>= f : Except String β) = f a := rfl

theorem except_bind_error {α β : Type} (m : String) (f : α → Except String β) :
    ((Except.error m : Except String α) >>= f : Except String β) = .error m := rfl

theorem add_edges_conversion_spec (g : BELGraph) (m : List (String × Option Entity))
    (att : RawInteraction) (ps : List (String × String))
    (hconv : "Conversion" ∈ att.interaction_types)
    (hres : ∀ p ∈ ps, (∃ e, m.lookup p.1 = some (some e)) ∧
      (∃ e, m.lookup p.2 = some (some e))) :
    ∃ R P, add_edges g ps m att = .ok (g.add_node_from_data (.reaction R P)) ∧
      R.Nodup ∧ P.Nodup ∧
      (∀ e ∈ R, ∃ p ∈ ps, m.lookup p.1 = some (some e)) ∧
      (∀ p ∈ ps, ∀ e, m.lookup p.1 = some (some e) → e ∈ R) ∧
      (∀ e ∈ P, ∃ p ∈ ps, m.lookup p.2 = some (some e)) ∧
      (∀ p ∈ ps, ∀ e, m.lookup p.2 = some (some e) → e ∈ P) := by
  have hrIds : ∀ i ∈ ps.foldl (fun acc p => sinsert p.1 acc) [],
      ∃ e, m.lookup i = some (some e) := by
    intro i hi
    rcases (mem_foldl_sinsert (fun p => p.1) ps [] i).mp hi with h | ⟨p, hp, rfl⟩
    · simp at h
    · exact (hres p hp).1
  have hpIds : ∀ i ∈ ps.foldl (fun acc p => sinsert p.2 acc) [],
      ∃ e, m.lookup i = some (some e) := by
    intro i hi
    rcases (mem_foldl_sinsert (fun p => p.2) ps [] i).mp hi with h | ⟨p, hp, rfl⟩
    · simp at h
    · exact (hres p hp).2
  obtain ⟨outR, houtR⟩ := lookupValues_ok m _ []
    (fun i hi => by rcases hrIds i hi with ⟨e, he⟩; simp [he])
  obtain ⟨outP, houtP⟩ := lookupValues_ok m _ []
    (fun i hi => by rcases hpIds i hi with ⟨e, he⟩; simp [he])
  have hmemR := lookupValues_mem m _ [] outR houtR
  have hmemP := lookupValues_mem m _ [] outP houtP
  have hallR : ∀ v ∈ outR, ∃ e, v = some e := by
    intro v hv
    rcases (hmemR v).mp hv with h | ⟨i, hi, hl⟩
    · simp at h
    · rcases hrIds i hi with ⟨e, he⟩
      rw [he] at hl
      injection hl with h2
      exact ⟨e, h2.symm⟩
  have hallP : ∀ v ∈ outP, ∃ e, v = some e := by
    intro v hv
    rcases (hmemP v).mp hv with h | ⟨i, hi, hl⟩
    · simp at h
    · rcases hpIds i hi with ⟨e, he⟩
      rw [he] at hl
      injection hl with h2
      exact ⟨e, h2.symm⟩
  obtain ⟨R, hR⟩ := all_some_exists outR hallR
  obtain ⟨P, hP⟩ := all_some_exists outP hallP
  have hUR : unwrapEntities outR = .ok R := (unwrapEntities_ok_iff _ _).mpr hR
  have hUP : unwrapEntities outP = .ok P := (unwrapEntities_ok_iff _ _).mpr hP
  have hRmem : ∀ e, e ∈ R ↔ some e ∈ outR := by
    intro e
    rw [hR]
    exact (List.mem_map_of_injective (Option.some_injective _)).symm
  have hPmem : ∀ e, e ∈ P ↔ some e ∈ outP := by
    intro e
    rw [hP]
    exact (List.mem_map_of_injective (Option.some_injective _)).symm
  refine ⟨R, P, ?_, ?_, ?_, ?_, ?_, ?_, ?_⟩
  · simp only [add_edges, if_pos hconv]
    rw [houtR, except_bind_ok, houtP, except_bind_ok, hUR, except_bind_ok,
      hUP, except_bind_ok]
  · refine List.Nodup.of_map some ?_
    rw [← hR]
    exact lookupValues_nodup m _ [] outR houtR List.nodup_nil
  · refine List.Nodup.of_map some ?_
    rw [← hP]
    exact lookupValues_nodup m _ [] outP houtP List.nodup_nil
  · intro e he
    rcases (hmemR (some e)).mp ((hRmem e).mp he) with h | ⟨i, hi, hl⟩
    · simp at h
    · rcases (mem_foldl_sinsert (fun p => p.1) ps [] i).mp hi with h | ⟨p, hp, hpe⟩
      · simp at h
      · exact ⟨p, hp, by rw [hpe]; exact hl⟩
  · intro p hp e hl
    refine (hRmem e).mpr ((hmemR (some e)).mpr (Or.inr ⟨p.1, ?_, hl⟩))
    exact (mem_foldl_sinsert (fun q => q.1) ps [] p.1).mpr (Or.inr ⟨p, hp, rfl⟩)
  · intro e he
    rcases (hmemP (some e)).mp ((hPmem e).mp he) with h | ⟨i, hi, hl⟩
    · simp at h
    · rcases (mem_foldl_sinsert (fun p => p.2) ps [] i).mp hi with h | ⟨p, hp, hpe⟩
      · simp at h
      · exact ⟨p, hp, by rw [hpe]; exact hl⟩
  · intro p hp e hl
    refine (hPmem e).mpr ((hmemP (some e)).mpr (Or.inr ⟨p.2, ?_, hl⟩))
    exact (mem_foldl_sinsert (fun q => q.2) ps [] p.2).mpr (Or.inr ⟨p, hp, rfl⟩)

theorem add_edges_ok (g : BELGraph) (m : List (String × Option Entity))
    (att : RawInteraction) (h : interactionOK m att) :
    ∃ g2, add_edges g att.participants m att = .ok g2 := by
  unfold interactionOK at h
  by_cases hc : "Conversion" ∈ att.interaction_types
  · rw [if_pos hc] at h
    obtain ⟨R, P, heq, _⟩ := add_edges_conversion_spec g m att att.participants hc h
    exact ⟨_, heq⟩
  · rw [if_neg hc] at h
    simp only [add_edges, if_neg hc]
    apply foldlM_ok
    intro p hp g2
    rcases h p hp with ⟨h1, h2⟩
    cases hs : m.lookup p.1 with
    | none => exact ⟨g2, by simp [hs]⟩
    | some u =>
      cases u with
      | none => exact absurd hs h1
      | some eu =>
        cases ht : m.lookup p.2 with
        | none => exact ⟨g2, by simp [hs, ht]⟩
        | some v =>
          cases v with
          | none => exact absurd ht h2
          | some ev =>
            obtain ⟨g3, hg3⟩ := add_simple_edge_total g2 eu ev
              att.interaction_types att.uri_id
            exact ⟨g3, by simp [hs, ht, hg3]⟩

/-! ### Claim C1 -/

/-- Claim C1 counterexample: a Conversion interaction whose participant
source id a is absent from the resolved-node mapping makes add_edges fail
with a KeyError instead of dropping the id from the reactant set; the claim
says the call never fails. -/
theorem C1_counterexample :
    add_edges g0 [("a", "b")] mOnlyB attConv = .error "KeyError: a" := by rfl

/-- Claim C1 (amended): for a Conversion interaction whose every
participant source and target id is mapped to a resolved node, add_edges
emits exactly one reaction construct (a node; the edge set is untouched)
whose reactant and product lists are exactly the resolved values of the
deduplicated participant sources and targets, without duplicates; a
participant id absent from the mapping is not dropped but raises KeyError,
aborting the call. -/
theorem C1_conversion_reaction (g : BELGraph) (m : List (String × Option Entity))
    (att : RawInteraction) (ps : List (String × String))
    (hconv : "Conversion" ∈ att.interaction_types)
    (hres : ∀ p ∈ ps, (∃ e, m.lookup p.1 = some (some e)) ∧
      (∃ e, m.lookup p.2 = some (some e))) :
    ∃ R P, add_edges g ps m att = .ok (g.add_node_from_data (.reaction R P)) ∧
      R.Nodup ∧ P.Nodup ∧
      (∀ e ∈ R, ∃ p ∈ ps, m.lookup p.1 = some (some e)) ∧
      (∀ p ∈ ps, ∀ e, m.lookup p.1 = some (some e) → e ∈ R) ∧
      (∀ e ∈ P, ∃ p ∈ ps, m.lookup p.2 = some (some e)) ∧
      (∀ p ∈ ps, ∀ e, m.lookup p.2 = some (some e) → e ∈ P) :=
  add_edges_conversion_spec g m att ps hconv hres

/-- Claim C1 witness: the amended theorem applied to a concrete Conversion
interaction between two resolved metabolites. -/
theorem C1_witness :
    ∃ R P, add_edges g0 [("a", "b")] mAB attConv =
        .ok (g0.add_node_from_data (.reaction R P)) ∧
      R.Nodup ∧ P.Nodup ∧
      (∀ e ∈ R, ∃ p ∈ [("a", "b")], mAB.lookup p.1 = some (some e)) ∧
      (∀ p ∈ [("a", "b")], ∀ e, mAB.lookup p.1 = some (some e) → e ∈ R) ∧
      (∀ e ∈ P, ∃ p ∈ [("a", "b")], mAB.lookup p.2 = some (some e)) ∧
      (∀ p ∈ [("a", "b")], ∀ e, mAB.lookup p.2 = some (some e) → e ∈ P) :=
  C1_conversion_reaction g0 mAB attConv [("a", "b")] (by decide)
    (by
      intro p hp
      simp only [List.mem_singleton] at hp
      subst hp
      exact ⟨⟨uA, rfl⟩, ⟨uB, rfl⟩⟩)

/-! ### Claim C3 -/

/-- Claim C3 counterexample: the TranscriptionTranslation branch of
add_simple_edge emits an edge with no citation and no evidence at all, so
the emitted edge does not carry the interaction URI as citation nor the
empty string as evidence. -/
theorem C3_counterexample :
    (add_simple_edge g0 (some uA) (some uB) ["TranscriptionTranslation"] "u1").map
      (fun g => g.edges.map (fun e => (e.citation, e.evidence))) =
      .ok [(none, none)] ∧ (none : Option String) ≠ some "u1" := by
  constructor
  · rfl
  · decide

/-- Claim C3 (amended): for resolved endpoints, the Stimulation,
Inhibition, Catalysis and DirectedInteraction branches each emit exactly
one edge carrying the interaction URI as citation and the empty string as
evidence, while the TranscriptionTranslation branch emits exactly one
unqualified translation edge with neither citation nor evidence. -/
theorem C3_citation_evidence (g : BELGraph) (u v : Entity) (ts : List String)
    (uri : String) :
    ("Stimulation" ∈ ts → ∃ g2 e, add_simple_edge g (some u) (some v) ts uri = .ok g2 ∧
      g2.edges = g.edges ++ [e] ∧ e.citation = some uri ∧ e.evidence = some "") ∧
    ("Stimulation" ∉ ts → "Inhibition" ∈ ts →
      ∃ g2 e, add_simple_edge g (some u) (some v) ts uri = .ok g2 ∧
      g2.edges = g.edges ++ [e] ∧ e.citation = some uri ∧ e.evidence = some "") ∧
    ("Stimulation" ∉ ts → "Inhibition" ∉ ts → "Catalysis" ∈ ts →
      ∃ g2 e, add_simple_edge g (some u) (some v) ts uri = .ok g2 ∧
      g2.edges = g.edges ++ [e] ∧ e.citation = some uri ∧ e.evidence = some "") ∧
    ("Stimulation" ∉ ts → "Inhibition" ∉ ts → "Catalysis" ∉ ts →
      "TranscriptionTranslation" ∈ ts →
      ∃ g2 e, add_simple_edge g (some u) (some v) ts uri = .ok g2 ∧
      g2.edges = g.edges ++ [e] ∧ e.citation = none ∧ e.evidence = none) ∧
    ("Stimulation" ∉ ts → "Inhibition" ∉ ts → "Catalysis" ∉ ts →
      "TranscriptionTranslation" ∉ ts → "DirectedInteraction" ∈ ts →
      ∃ g2 e, add_simple_edge g (some u) (some v) ts uri = .ok g2 ∧
      g2.edges = g.edges ++ [e] ∧ e.citation = some uri ∧ e.evidence = some "") := by
  refine ⟨?_, ?_, ?_, ?_, ?_⟩
  · intro h
    exact ⟨_, _, add_simple_edge_stim g u v ts uri h, rfl, rfl, rfl⟩
  · intro hS h
    exact ⟨_, _, add_simple_edge_inh g u v ts uri hS h, rfl, rfl, rfl⟩
  · intro hS hI h
    exact ⟨_, _, add_simple_edge_cat g u v ts uri hS hI h, rfl, rfl, rfl⟩
  · intro hS hI hC h
    exact ⟨_, _, add_simple_edge_tt g u v ts uri hS hI hC h, rfl, rfl, rfl⟩
  · intro hS hI hC hT h
    exact ⟨_, _, add_simple_edge_di g u v ts uri hS hI hC hT h, rfl, rfl, rfl⟩

/-- Claim C3 witness: the amended theorem applied to a concrete Stimulation
pair, yielding one edge with the URI citation and empty evidence. -/
theorem C3_witness :
    ∃ g2 e, add_simple_edge g0 (some uA) (some uB) ["Stimulation"] "u1" = .ok g2 ∧
      g2.edges = g0.edges ++ [e] ∧ e.citation = some "u1" ∧ e.evidence = some "" :=
  (C3_citation_evidence g0 uA uB ["Stimulation"] "u1").1 (by decide)

/-! ### Claim C7 -/

/-- Claim C7: add_simple_edge with both endpoints resolved dispatches on
the type tags first match wins in the order Stimulation, Inhibition,
Catalysis, TranscriptionTranslation, DirectedInteraction; Stimulation
yields exactly one increases edge from u to v with an activity object
modifier and the interaction URI as citation, and a tag set matching none
of those five (in particular one containing only Interaction) yields zero
edges and leaves the graph unchanged. -/
theorem C7_dispatch (g : BELGraph) (u v : Entity) (ts : List String) (uri : String) :
    ("Stimulation" ∈ ts → ∃ g2 e, add_simple_edge g (some u) (some v) ts uri = .ok g2 ∧
      g2.edges = g.edges ++ [e] ∧ e.source = u ∧ e.target = v ∧
      e.relation = "increases" ∧ e.object_modifier = some "activity" ∧
      e.citation = some uri) ∧
    ("Stimulation" ∉ ts → "Inhibition" ∈ ts →
      ∃ g2 e, add_simple_edge g (some u) (some v) ts uri = .ok g2 ∧
      g2.edges = g.edges ++ [e] ∧ e.relation = "decreases" ∧
      e.object_modifier = some "activity") ∧
    ("Stimulation" ∉ ts → "Inhibition" ∉ ts → "Catalysis" ∈ ts →
      ∃ g2 e, add_simple_edge g (some u) (some v) ts uri = .ok g2 ∧
      g2.edges = g.edges ++ [e] ∧ e.relation = "increases" ∧
      e.object_modifier = some "activity") ∧
    ("Stimulation" ∉ ts → "Inhibition" ∉ ts → "Catalysis" ∉ ts →
      "TranscriptionTranslation" ∈ ts →
      ∃ g2 e, add_simple_edge g (some u) (some v) ts uri = .ok g2 ∧
      g2.edges = g.edges ++ [e] ∧ e.relation = "translatedTo") ∧
    ("Stimulation" ∉ ts → "Inhibition" ∉ ts → "Catalysis" ∉ ts →
      "TranscriptionTranslation" ∉ ts → "DirectedInteraction" ∈ ts →
      ∃ g2 e, add_simple_edge g (some u) (some v) ts uri = .ok g2 ∧
      g2.edges = g.edges ++ [e] ∧ e.relation = "association" ∧
      e.annotations = some [("EdgeTypes", ts)]) ∧
    ("Stimulation" ∉ ts → "Inhibition" ∉ ts → "Catalysis" ∉ ts →
      "TranscriptionTranslation" ∉ ts → "DirectedInteraction" ∉ ts →
      add_simple_edge g (some u) (some v) ts uri = .ok g) := by
  refine ⟨?_, ?_, ?_, ?_, ?_, ?_⟩
  · intro h
    exact ⟨_, _, add_simple_edge_stim g u v ts uri h, rfl, rfl, rfl, rfl, rfl, rfl⟩
  · intro hS h
    exact ⟨_, _, add_simple_edge_inh g u v ts uri hS h, rfl, rfl, rfl⟩
  · intro hS hI h
    exact ⟨_, _, add_simple_edge_cat g u v ts uri hS hI h, rfl, rfl, rfl⟩
  · intro hS hI hC h
    exact ⟨_, _, add_simple_edge_tt g u v ts uri hS hI hC h, rfl, rfl⟩
  · intro hS hI hC hT h
    exact ⟨_, _, add_simple_edge_di g u v ts uri hS hI hC hT h, rfl, rfl, rfl⟩
  · intro hS hI hC hT hD
    exact add_simple_edge_silent g (some u) (some v) ts uri hS hI hC hT hD

/-- Claim C7 witness: the dispatch theorem applied to a concrete pair,
once with tags containing Stimulation (and Inhibition, showing the order)
and once with only the Interaction tag (zero edges). -/
theorem C7_witness :
    (∃ g2 e, add_simple_edge g0 (some uA) (some uB) ["Stimulation", "Inhibition"] "u2" =
        .ok g2 ∧ g2.edges = g0.edges ++ [e] ∧ e.source = uA ∧ e.target = uB ∧
      e.relation = "increases" ∧ e.object_modifier = some "activity" ∧
      e.citation = some "u2") ∧
    add_simple_edge g0 (some uA) (some uB) ["Interaction"] "u2" = .ok g0 :=
  ⟨(C7_dispatch g0 uA uB ["Stimulation", "Inhibition"] "u2").1 (by decide),
   (C7_dispatch g0 uA uB ["Interaction"] "u2").2.2.2.2.2 (by decide) (by decide)
     (by decide) (by decide) (by decide)⟩

/-! ### Claim C4 -/

/-- Claim C4 counterexample: a GeneProduct node is given the fixed HGNC
namespace constant, not the namespace the identifier resolver returned for
its candidate-identifier set, so the produced triple differs from the
resolver triple in its namespace. -/
theorem C4_counterexample :
    node_to_bel gpNode r0 = some (.gene HGNC "ACE2" "59272") ∧
    (r0 (node_ids_dict_of gpNode)).1 = "ncbigene" ∧ HGNC ≠ "ncbigene" :=
  ⟨rfl, rfl, by decide⟩

/-- Claim C4 (amended): Protein and Rna nodes take the full
(namespace, name, identifier) triple returned by the identifier resolver;
a GeneProduct node takes the resolver name and identifier but its
namespace is the fixed HGNC constant, regardless of the namespace the
resolver returned. -/
theorem C4_resolver_triple (node : RawNode) (resolver : Resolver)
    (ns nm ident : String)
    (hres : resolver (node_ids_dict_of node) = (ns, nm, ident)) :
    ("Protein" ∈ node.node_types →
      node_to_bel node resolver = some (.protein ns nm ident)) ∧
    ("Protein" ∉ node.node_types → "Rna" ∈ node.node_types →
      node_to_bel node resolver = some (.rna ns nm ident)) ∧
    ("Protein" ∉ node.node_types → "Rna" ∉ node.node_types →
      "GeneProduct" ∈ node.node_types →
      node_to_bel node resolver = some (.gene HGNC nm ident)) := by
  refine ⟨?_, ?_, ?_⟩
  · intro h
    simp [node_to_bel, h, hres]
  · intro hP h
    simp [node_to_bel, hP, h, hres]
  · intro hP hR h
    simp [node_to_bel, hP, hR, h, hres]

/-- Claim C4 witness: the amended theorem applied to the concrete
GeneProduct node, showing the HGNC namespace in the result. -/
theorem C4_witness : node_to_bel gpNode r0 = some (.gene HGNC "ACE2" "59272") :=
  (C4_resolver_triple gpNode r0 "ncbigene" "ACE2" "59272" rfl).2.2
    (by decide) (by decide) (by decide)

/-! ### Claim C10 -/

/-- Claim C10: complex_to_bel builds the composite node and inserts it
into the graph even when none of the declared member ids is present in the
resolved-node mapping; the member set is then empty, no error is raised
and the composite node is in the resulting node set. -/
theorem C10_complex_empty (c : RawComplex) (m : List (String × Option Entity))
    (g : BELGraph) (h : ∀ mid ∈ c.participants, m.lookup mid = none) :
    ∃ cnode g2, complex_to_bel c m g = .ok (cnode, g2) ∧
      cnode = Entity.complex_abundance [] (parse_id_uri c.uri_id).2.2.2 "wp_complex" ∧
      cnode ∈ g2.nodes := by
  have hmv : ∀ (l : List String) (acc : List (Option Entity)),
      (∀ mid ∈ l, m.lookup mid = none) →
      l.foldl (fun acc mid =>
        match m.lookup mid with
        | some v => sinsert v acc
        | none => acc) acc = acc := by
    intro l
    induction l with
    | nil => intro acc _; rfl
    | cons a rest ih =>
      intro acc hl
      have ha := hl a (List.mem_cons_self a rest)
      simp only [List.foldl_cons, ha]
      exact ih acc (fun b hb => hl b (List.mem_cons_of_mem _ hb))
  have heq : complex_to_bel c m g =
      .ok (Entity.complex_abundance [] (parse_id_uri c.uri_id).2.2.2 "wp_complex",
        g.add_node_from_data
          (Entity.complex_abundance [] (parse_id_uri c.uri_id).2.2.2 "wp_complex")) := by
    simp only [complex_to_bel]
    rw [hmv c.participants [] h]
    rfl
  exact ⟨_, _, heq, rfl, (mem_sinsert _ _ _).mpr (Or.inl rfl)⟩

/-- Claim C10 witness: the theorem applied to a concrete complex whose two
members are absent from the mapping. -/
theorem C10_witness :
    ∃ cnode g2, complex_to_bel cplx0 mOnlyB g0 = .ok (cnode, g2) ∧
      cnode = Entity.complex_abundance [] (parse_id_uri cplx0.uri_id).2.2.2
        "wp_complex" ∧
      cnode ∈ g2.nodes :=
  C10_complex_empty cplx0 mOnlyB g0 (by decide)

/-! ### Claim C5 -/

/-- Claim C5 counterexample: node_to_bel yields no node for an
unrecognized tag set, but nodes_to_bel keeps the id in the mapping with a
None value, so the membership check of add_edges does not treat the node
as absent: a Stimulation pair targeting it reaches add_simple_edge with a
None endpoint and fails instead of being dropped, so the edge information
is not merely dropped with both-endpoint edges preserved. -/
theorem C5_counterexample :
    node_to_bel unkNode r0 = none ∧
    add_edges g0 [("n1", "n2")] (nodes_to_bel rawNodes r0) attStim =
      .error "TypeError: None is not a BaseEntity" :=
  ⟨rfl, rfl⟩

/-- Claim C5 (amended): a raw node matching none of the six recognized
type tags produces no node; a participant pair whose source or target id
is entirely absent from the mapping is skipped without adding an edge; but
an id present in the mapping with a None value (an unrecognized node) is
not treated as absent: a qualified branch such as Stimulation then fails
on the None endpoint instead of dropping the pair. -/
theorem C5_unknown_nodes :
    (∀ (node : RawNode) (resolver : Resolver),
      "Protein" ∉ node.node_types → "Rna" ∉ node.node_types →
      "GeneProduct" ∉ node.node_types → "Metabolite" ∉ node.node_types →
      "Pathway" ∉ node.node_types → "DataNode" ∉ node.node_types →
      node_to_bel node resolver = none) ∧
    (∀ (g : BELGraph) (m : List (String × Option Entity)) (att : RawInteraction)
      (ps : List (String × String)), "Conversion" ∉ att.interaction_types →
      (∀ p ∈ ps, m.lookup p.1 = none ∨
        (m.lookup p.1 ≠ none ∧ m.lookup p.2 = none)) →
      add_edges g ps m att = .ok g) ∧
    (∀ (g : BELGraph) (m : List (String × Option Entity)) (att : RawInteraction)
      (s t : String) (v : Option Entity), "Conversion" ∉ att.interaction_types →
      "Stimulation" ∈ att.interaction_types →
      m.lookup s = some none → m.lookup t = some v →
      add_edges g [(s, t)] m att = .error "TypeError: None is not a BaseEntity") := by
  refine ⟨?_, ?_, ?_⟩
  · intro node resolver h1 h2 h3 h4 h5 h6
    simp [node_to_bel, h1, h2, h3, h4, h5, h6]
  · intro g m att ps hc hskip
    simp only [add_edges, if_neg hc]
    apply foldlM_ok_const
    intro p hp g2
    rcases hskip p hp with h1 | ⟨h1, h2⟩
    · simp [h1]
    · cases hs : m.lookup p.1 with
      | none => simp [hs]
      | some u => simp [hs, h2]
  · intro g m att s t v hc hstim hs ht
    simp only [add_edges, if_neg hc, List.foldlM]
    rw [hs, ht]
    have : add_simple_edge g none v att.interaction_types att.uri_id =
        .error "TypeError: None is not a BaseEntity" := by
      cases v <;> simp [add_simple_edge, hstim]
    simp [this]

/-- Claim C5 witness: the amended theorem applied to the concrete
unrecognized node, a concrete skipped pair and a concrete pair hitting a
None value. -/
theorem C5_witness :
    node_to_bel unkNode r0 = none ∧
    add_edges g0 [("z", "y")] mOnlyB attStim = .ok g0 ∧
    add_edges g0 [("x", "y")] [("x", none), ("y", some uB)] attStim =
      .error "TypeError: None is not a BaseEntity" :=
  ⟨C5_unknown_nodes.1 unkNode r0 (by decide) (by decide) (by decide) (by decide)
      (by decide) (by decide),
   C5_unknown_nodes.2.1 g0 mOnlyB attStim [("z", "y")] (by decide)
     (by
       intro p hp
       simp only [List.mem_singleton] at hp
       subst hp
       exact Or.inl rfl),
   C5_unknown_nodes.2.2 g0 [("x", none), ("y", some uB)] attStim "x" "y"
     (some uB) (by decide) (by decide) rfl rfl⟩

/-! ### Claim C6 -/

/-- Claim C6 counterexample: pathway metadata carrying both the title and
the identifier but no description still makes convert_to_bel fail, so the
call does not fail only on missing title or identifier. -/
theorem C6_counterexample :
    (pinfoNoDesc.lookup "title").isSome ∧ (pinfoNoDesc.lookup "pathway_id").isSome ∧
    convert_to_bel [] [] [] pinfoNoDesc r0 ev0 = .error "KeyError: description" :=
  ⟨by decide, by decide, rfl⟩

/-- Claim C6 (amended): convert_to_bel fails whenever pathway_info is
missing any of title, description or pathway_id; and when all three are
present, the complex-building step succeeds and every interaction
references only resolved participants (all of them for Conversions, no
None values otherwise), the call returns a graph.  Resolution failures are
not all recovered: Conversion interactions with unmapped participants and
pairs hitting None values make the call fail. -/
theorem C6_assembler_failure :
    (∀ (nodes : List (String × RawNode)) (complexes : List (String × RawComplex))
      (interactions : List RawInteraction) (pinfo : List (String × String))
      (resolver : Resolver) (ev : String → String),
      (pinfo.lookup "title" = none ∨ pinfo.lookup "description" = none ∨
        pinfo.lookup "pathway_id" = none) →
      ∃ msg, convert_to_bel nodes complexes interactions pinfo resolver ev =
        .error msg) ∧
    (∀ (nodes : List (String × RawNode)) (complexes : List (String × RawComplex))
      (interactions : List RawInteraction) (pinfo : List (String × String))
      (resolver : Resolver) (ev : String → String) (title desc pid : String)
      (cmap : List (String × Option Entity)) (g1 : BELGraph),
      pinfo.lookup "title" = some title → pinfo.lookup "description" = some desc →
      pinfo.lookup "pathway_id" = some pid →
      complexes_to_bel complexes (nodes_to_bel nodes resolver)
        (initial_graph title (ev desc) pid) = .ok (cmap, g1) →
      (∀ i ∈ interactions,
        interactionOK (dictUpdate (nodes_to_bel nodes resolver) cmap) i) →
      ∃ g, convert_to_bel nodes complexes interactions pinfo resolver ev = .ok g) := by
  constructor
  · intro nodes complexes interactions pinfo resolver ev h
    rcases h with h | h | h
    · exact ⟨"KeyError: title",
        by simp [convert_to_bel, getItem, h, except_bind_ok, except_bind_error]⟩
    · cases ht : pinfo.lookup "title" with
      | none =>
        exact ⟨"KeyError: title",
          by simp [convert_to_bel, getItem, ht, except_bind_ok, except_bind_error]⟩
      | some ttl =>
        exact ⟨"KeyError: description",
          by simp [convert_to_bel, getItem, ht, h, except_bind_ok, except_bind_error]⟩
    · cases ht : pinfo.lookup "title" with
      | none =>
        exact ⟨"KeyError: title",
          by simp [convert_to_bel, getItem, ht, except_bind_ok, except_bind_error]⟩
      | some ttl =>
        cases hd : pinfo.lookup "description" with
        | none =>
          exact ⟨"KeyError: description",
            by simp [convert_to_bel, getItem, ht, hd, except_bind_ok, except_bind_error]⟩
        | some dsc =>
          exact ⟨"KeyError: pathway_id",
            by simp [convert_to_bel, getItem, ht, hd, h, except_bind_ok,
              except_bind_error]⟩
  · intro nodes complexes interactions pinfo resolver ev title desc pid cmap g1
      ht hd hp hcb hok
    obtain ⟨gf, hgf⟩ := foldlM_ok
      (fun g i => add_edges g i.participants
        (dictUpdate (nodes_to_bel nodes resolver) cmap) i)
      interactions g1
      (fun i hi g2 => add_edges_ok g2 _ i (hok i hi))
    refine ⟨gf, ?_⟩
    simp only [convert_to_bel, getItem, ht, hd, hp, except_bind_ok]
    rw [hcb]
    simp only [except_bind_ok]
    exact hgf

/-- Claim C6 witness: with complete metadata and no records, the amended
theorem yields a successful conversion. -/
theorem C6_witness : ∃ g, convert_to_bel [] [] [] pinfoFull r0 ev0 = .ok g :=
  C6_assembler_failure.2 [] [] [] pinfoFull r0 ev0 "T" "D" "WP1" []
    (initial_graph "T" "D" "WP1") rfl rfl rfl rfl
    (fun i hi => absurd hi (by simp))

/-! ### Claim C2 -/

/-- Claim C2 counterexample: a merge run whose KEGG folder lists an
unloadable pickle followed by a loadable one aborts with the load error
instead of continuing to the next file. -/
theorem C2_counterexample :
    "good.pickle" ∈ (get_all_pickles env0).1 ∧
    _iterate_universe_graphs env0 = .error "UnpicklingError" :=
  ⟨by decide, rfl⟩

/-- Claim C2 (amended): the merge iteration skips, and continues past,
files that are in none of the three folder listings and files without the
.pickle suffix; but a failure while loading a classified file is not
caught: it propagates and aborts the whole run. -/
theorem C2_load_failure :
    (∀ (env : MergeEnv) (k r w : List String) (acc : List BELGraph) (f : String),
      f ∉ k → f ∉ r → f ∉ w → _process_file env k r w acc f = .ok acc) ∧
    (∀ (env : MergeEnv) (k r w : List String) (acc : List BELGraph) (f : String),
      endswith f ".pickle" = false → _process_file env k r w acc f = .ok acc) ∧
    (∀ (env : MergeEnv) (f : String) (rest : List String) (m2 : String),
      env.listdir env.kegg_path = f :: rest → endswith f ".pickle" = true →
      env.load env.kegg_path f = .error m2 →
      _iterate_universe_graphs env = .error m2) := by
  refine ⟨?_, ?_, ?_⟩
  · intro env k r w acc f h1 h2 h3
    simp [_process_file, h1, h2, h3]
  · intro env k r w acc f h
    simp [_process_file, h]
  · intro env f rest m2 h1 h2 h3
    have hstep : _process_file env (f :: rest) (env.listdir env.reactome_path)
        (env.listdir env.wikipathways_path) [] f = .error m2 := by
      simp [_process_file, h2, h3]
    simp only [_iterate_universe_graphs, get_all_pickles, h1, List.cons_append,
      List.foldlM]
    rw [hstep]
    rfl

/-- Claim C2 witness: the amended theorem applied to a concrete file
absent from all three listings, which is skipped with the run
continuing. -/
theorem C2_witness :
    _process_file env0 ["bad.pickle"] [] [] [] "unknown.pickle" = .ok [] :=
  C2_load_failure.1 env0 ["bad.pickle"] [] [] [] "unknown.pickle"
    (by decide) (by decide) (by decide)

/-! ### Claim C9 -/

/-- Claim C9: during the merge iteration a pickle file is classified
against the three folder listings in the fixed order KEGG, Reactome,
WikiPathways, first match wins: a file in the KEGG listing is loaded from
the KEGG folder and processed under the KEGG database constant no matter
which other listings also hold it, and likewise down the order. -/
theorem C9_first_match (env : MergeEnv) (k r w : List String)
    (acc : List BELGraph) (f : String) (g : BELGraph) :
    (endswith f ".pickle" = true → f ∈ k → env.load env.kegg_path f = .ok g →
      _process_file env k r w acc f = .ok (acc ++ [_process_branch env g KEGG])) ∧
    (endswith f ".pickle" = true → f ∉ k → f ∈ r →
      env.load env.reactome_path f = .ok g →
      _process_file env k r w acc f = .ok (acc ++ [_process_branch env g REACTOME])) ∧
    (endswith f ".pickle" = true → f ∉ k → f ∉ r → f ∈ w →
      env.load env.wikipathways_path f = .ok g →
      _process_file env k r w acc f =
        .ok (acc ++ [_process_branch env g WIKIPATHWAYS])) := by
  refine ⟨?_, ?_, ?_⟩
  · intro h1 h2 h3
    simp [_process_file, h1, h2, h3]
  · intro h1 h2 h3 h4
    simp [_process_file, h1, h2, h3, h4]
  · intro h1 h2 h3 h4 h5
    simp [_process_file, h1, h2, h3, h4, h5]

/-- Claim C9 witness: a file listed in both the KEGG and the WikiPathways
folders is loaded from the KEGG folder and tagged KEGG. -/
theorem C9_witness :
    _process_file envDup ["dup.pickle"] [] ["dup.pickle"] [] "dup.pickle" =
      .ok ([] ++ [_process_branch envDup g0 KEGG]) :=
  (C9_first_match envDup ["dup.pickle"] [] ["dup.pickle"] [] "dup.pickle" g0).1
    (by decide) (by decide) rfl

/-! ### Claim C8 -/

/-- Claim C8: after the merge processes one loaded graph under database
db, the declared domain of the database annotation key is exactly the
KEGG, Reactome, WikiPathways value set; every edge ends up with an
annotations container obtained from its previous one (an empty one where
absent, the previous entries untouched) in which the database key asserts
db; consequently every edge has a container whose database entry is db;
and setKey leaves every other annotation key unchanged. -/
theorem C8_provenance (env : MergeEnv) (g : BELGraph) (db : String) :
    ((_process_branch env g db).annotation_list.lookup "database" =
      some [KEGG, REACTOME, WIKIPATHWAYS]) ∧
    ((_process_branch env g db).edges = (_flatten_normalize env g db).edges.map
      (fun e =>
        { e with annotations := some (setKey (e.annotations.getD []) "database" [db]) })) ∧
    (∀ e ∈ (_process_branch env g db).edges,
      e.annotations.isSome ∧ (e.annotations.getD []).lookup "database" = some [db]) ∧
    (∀ (a : List (String × List String)) (k2 : String), k2 ≠ "database" →
      (setKey a "database" [db]).lookup k2 = a.lookup k2) := by
  have hedges : (_process_branch env g db).edges =
      (_flatten_normalize env g db).edges.map (fun e =>
        { e with annotations := some (setKey (e.annotations.getD []) "database" [db]) }) := by
    have h1 : (_process_branch env g db).edges =
        ((_flatten_normalize env g db).edges.map (fun e =>
          match e.annotations with
          | none => { e with annotations := some [] }
          | some _ => e)).map (fun e =>
          match e.annotations with
          | none => e
          | some anns => { e with annotations := some (setKey anns "database" [db]) }) := rfl
    rw [h1, List.map_map]
    refine List.map_congr_left ?_
    intro e _
    cases he : e.annotations <;> simp [Function.comp, he]
  refine ⟨?_, hedges, ?_, ?_⟩
  · exact lookup_setKey_self _ _ _
  · intro e he
    rw [hedges] at he
    obtain ⟨e2, _, rfl⟩ := List.mem_map.mp he
    exact ⟨rfl, lookup_setKey_self _ _ _⟩
  · intro a k2 h
    exact lookup_setKey_ne a "database" k2 [db] h

/-- Claim C8 witness: the theorem applied to a concrete environment,
graph and the KEGG database, checked on the concrete edge that already
carried a Cell annotation. -/
theorem C8_witness :
    ((_process_branch env0 gE KEGG).annotation_list.lookup "database" =
      some [KEGG, REACTOME, WIKIPATHWAYS]) ∧
    (taggedE1.annotations.isSome ∧
      (taggedE1.annotations.getD []).lookup "database" = some [KEGG]) :=
  ⟨(C8_provenance env0 gE KEGG).1,
   (C8_provenance env0 gE KEGG).2.2.1 taggedE1 (by decide)⟩

end Pathme
